import Mathlib

/-!
Verification of the Pachyderm pipeline-system core (commit-provenance
propagation, datum dedup/skip, job scheduling, FlushCommit) against its
natural-language specification.  The pipeline server implementation is not
part of the checked sources (only its integration tests are), so every
operational definition below is modelled from the specification's contract
language; each such definition says so in its doc comment.
-/

namespace Pach

/-- Job lifecycle states: `STARTING → RUNNING → {SUCCESS, FAILURE, KILLED}`. -/
inductive JobState where
  | STARTING
  | RUNNING
  | SUCCESS
  | FAILURE
  | KILLED
deriving DecidableEq

/-- Datum states. -/
inductive DatumState where
  | PENDING
  | SUCCESS
  | FAILED
  | SKIPPED
deriving DecidableEq

/-! ### String containment (for `Reason` fields) -/

/-- Whether `pat` is an initial segment of the second list. -/
def listStarts : List Char → List Char → Bool
  | [], _ => true
  | _ :: _, [] => false
  | a :: as, b :: bs => a = b && listStarts as bs

/-- Whether `pat` occurs contiguously inside the second list. -/
def listHas (pat : List Char) : List Char → Bool
  | [] => listStarts pat []
  | l@(_ :: rest) => listStarts pat l || listHas pat rest

/-- Whether `pat` occurs as a substring of `s`. -/
def strHas (s pat : String) : Bool :=
  listHas pat.toList s.toList

/-! ### Worker-pool sizing (`ParallelismSpec`) -/

/-- The `ParallelismSpec` message: either a constant worker count or a
coefficient applied to the cluster node count.  The coefficient, a float in
the wire format, is modelled as a rational. -/
structure ParallelismSpec where
  constant : Nat
  coefficient : ℚ
deriving DecidableEq

/-- Modelled from the spec: `ppsutil.GetExpectedNumWorkers` is not in the
checked sources.  "dispatches chunks to a worker pool sized by
`ParallelismSpec`: `Constant=N` ⇒ N workers; `Coefficient=c` ⇒
`max(1, round(c * clusterNodeCount))`; absent/zero spec ⇒ 1 worker". -/
def GetExpectedNumWorkers (clusterNodeCount : Nat) :
    Option ParallelismSpec → Nat
  | none => 1
  | some s =>
    if 0 < s.constant then s.constant
    else if 0 < s.coefficient then
      max 1 (round (s.coefficient * clusterNodeCount)).toNat
    else 1

/-! ### Per-datum retry loop (`DatumTries`) -/

/-- Modelled from the spec: the worker's per-datum retry loop is not in the
checked sources.  "non-zero exit ... is a failure, retried up to `DatumTries`
times"; each failed attempt emits one log line ("errored running user code
after ..." in the tests).  `cmdOk i` tells whether attempt `i` succeeds.
Returns (failure log lines emitted, datum succeeded?). -/
def runDatumAttempts (cmdOk : Nat → Bool) : Nat → Nat → Nat × Bool
  | _, 0 => (0, false)
  | attempt, fuel + 1 =>
    if cmdOk attempt then (0, true)
    else
      let r := runDatumAttempts cmdOk (attempt + 1) fuel
      (r.1 + 1, r.2)

/-- A terminal job outcome with its human-readable reason. -/
structure JobOutcome where
  state : JobState
  reason : String
deriving DecidableEq

/-- Modelled from the spec: "exhausting retries fails the job with Reason
containing \"datum\"".  Runs one datum with `tries` attempts; on exhaustion
the job reaches FAILURE.  Returns (outcome, failure log lines emitted). -/
def runJobOneDatum (cmdOk : Nat → Bool) (tries : Nat) : JobOutcome × Nat :=
  let r := runDatumAttempts cmdOk 0 tries
  if r.2 then ({ state := .SUCCESS, reason := "" }, r.1)
  else ({ state := .FAILURE, reason := "failed to process datum" }, r.1)

/-! ### Timeouts (`DatumTimeout`, `JobTimeout`) -/

/-- Recorded per-datum statistics (durations in abstract time units). -/
structure DatumStats where
  processTime : Nat
deriving DecidableEq

/-- Result of executing one datum under an optional `DatumTimeout`. -/
structure DatumExecResult where
  state : DatumState
  stats : DatumStats
  processKilled : Bool
deriving DecidableEq

/-- Modelled from the spec: "`DatumTimeout` bounds a single datum's
wall-clock execution (process is killed on expiry, datum FAILED, recorded
ProcessTime equals the timeout)".  `need` is the time the user command would
take. -/
def runDatumWithTimeout (need : Nat) : Option Nat → DatumExecResult
  | none => { state := .SUCCESS, stats := { processTime := need }, processKilled := false }
  | some t =>
    if t < need then
      { state := .FAILED, stats := { processTime := t }, processKilled := true }
    else
      { state := .SUCCESS, stats := { processTime := need }, processKilled := false }

/-- Modelled from the spec: a job whose datum list contains a FAILED datum
transitions to FAILURE ("the datum is marked FAILED and the job transitions
to FAILURE"). -/
def jobStateOfDatums (results : List DatumExecResult) : JobState :=
  if results.any (fun r => r.state = .FAILED) then .FAILURE else .SUCCESS

/-- Timing record of a whole job. -/
structure JobTiming where
  state : JobState
  started : Nat
  finished : Nat
deriving DecidableEq

/-- Modelled from the spec: "`JobTimeout` bounds the whole job; on expiry the
job is forcibly KILLED with Finished−Started equal to the timeout (±small
tolerance)".  `totalNeed` is the time the whole job would take. -/
def runJobWithTimeout (totalNeed : Nat) (started : Nat) :
    Option Nat → JobTiming
  | none => { state := .SUCCESS, started, finished := started + totalNeed }
  | some t =>
    if t < totalNeed then
      { state := .KILLED, started, finished := started + t }
    else
      { state := .SUCCESS, started, finished := started + totalNeed }

/-! ### Datum planning and the Dedup/Skip engine -/

/-- A file tree: (logical path, content) pairs.  Content stands for its own
content-hash: the storage layer is content-addressed, so byte-identical
content yields an identical hash. -/
abbrev FileTree := List (String × String)

/-- A datum: the ordered set of (logical path, content-hash) pairs it reads. -/
structure Datum where
  files : FileTree
deriving DecidableEq

/-- Modelled from the spec: "stable ID = hash over the ordered set of
(logical path, content-hash) pairs it reads".  The hash is modelled
injectively by the pair list itself. -/
def datumID (d : Datum) : FileTree := d.files

/-- Modelled from the spec: the Datum Planner for an Atom input with glob
`/*` produces "one [datum] per top-level entry" of the input tree. -/
def planAtomDatums (tree : FileTree) : List Datum :=
  tree.map fun fc => { files := [fc] }

/-- Modelled from the spec: the Dedup/Skip engine.  "for datum D with ID H
under pipeline P, if any previously SUCCESSful datum run of P recorded
output for H, mark D SKIPPED and copy its recorded output reference ...
without invoking user code."  `record` is the set of datum IDs with a
previously SUCCESSful run; `userOk` is the user transform (invoked only on
non-skipped datums).  Returns (per-datum states, updated record, number of
user-code invocations). -/
def processDatums (userOk : Datum → Bool) :
    List Datum → List FileTree → List (Datum × DatumState) × List FileTree × Nat
  | [], record => ([], record, 0)
  | d :: ds, record =>
    if datumID d ∈ record then
      let r := processDatums userOk ds record
      ((d, .SKIPPED) :: r.1, r.2.1, r.2.2)
    else if userOk d then
      let r := processDatums userOk ds (datumID d :: record)
      ((d, .SUCCESS) :: r.1, r.2.1, r.2.2 + 1)
    else
      let r := processDatums userOk ds record
      ((d, .FAILED) :: r.1, r.2.1, r.2.2 + 1)

/-- Modelled from the spec: running one job of a pipeline over an input
commit's tree: plan the datums, run them through the Dedup/Skip engine
against the pipeline's accumulated record of successful datum IDs. -/
def runJobDatums (userOk : Datum → Bool) (tree : FileTree)
    (record : List FileTree) :
    List (Datum × DatumState) × List FileTree × Nat :=
  processDatums userOk (planAtomDatums tree) record

/-- Modelled from the spec: a job whose datum list contains a FAILED datum
completes as FAILURE, otherwise SUCCESS. -/
def jobStateOfStates (rs : List (Datum × DatumState)) : JobState :=
  if rs.any (fun r => r.2 = .FAILED) then .FAILURE else .SUCCESS

/-! ### Commit graph, provenance propagation, jobs, FlushCommit -/

abbrev RepoName := String
abbrev CommitID := Nat

/-- The Input expression, a tagged union: Atom/Cross/Union/Cron/Git
(Cross and Union taken binary, as the client's NewCrossInput/NewUnionInput
constructors are used in the tests). -/
inductive Input where
  | atom (repo : RepoName) (glob : String)
  | cross (a b : Input)
  | union (a b : Input)
  | cron (repo : RepoName)
  | git (repo : RepoName)
deriving DecidableEq

/-- The repos appearing as leaves of an input expression. -/
def Input.leafRepos : Input → List RepoName
  | .atom r _ => [r]
  | .cross a b => a.leafRepos ++ b.leafRepos
  | .union a b => a.leafRepos ++ b.leafRepos
  | .cron r => [r]
  | .git r => [r]

/-- The user transforms the scenarios need, as data: copy everything to the
output, copy one file, fail when a given file exists, always fail. -/
inductive Transform where
  | copyAll
  | copyFile (f : String)
  | failIfFile (f : String)
  | alwaysFail
deriving DecidableEq

/-- Modelled from the spec: run the user Transform on the job's materialized
input view; a failing command yields an error (job FAILURE). -/
def applyTransform : Transform → FileTree → Except String FileTree
  | .copyAll, t => .ok t
  | .copyFile f, t => .ok (t.filter fun fc => fc.1 = f)
  | .failIfFile f, t =>
    if t.any (fun fc => fc.1 = f) then .error "user code exited with error"
    else .ok t
  | .alwaysFail, _ => .error "user code exited with error"

/-- A commit: ID, repo, optional parent, provenance row, finished flag,
content tree; `isStats` marks the statistics commit a job with EnableStats
writes alongside its output commit. -/
structure Commit where
  id : CommitID
  repo : RepoName
  parent : Option CommitID
  provenance : List CommitID
  finished : Bool
  tree : FileTree
  isStats : Bool
deriving DecidableEq

/-- A pipeline: name (also its output repo), version, input expression,
transform, and the flags the claims exercise. -/
structure Pipeline where
  name : RepoName
  version : Nat
  input : Input
  transform : Transform
  enableStats : Bool
  incremental : Bool
deriving DecidableEq

/-- A job: the durable record of one triggered (pipeline, provenance-set). -/
structure Job where
  id : Nat
  pipeline : RepoName
  version : Nat
  provenance : List CommitID
  outputCommit : CommitID
  state : JobState
deriving DecidableEq

/-- The whole system state: commit graph (per-repo master branch heads),
pipelines, jobs, and fresh-ID counters. -/
structure PachState where
  commits : List Commit
  heads : List (RepoName × CommitID)
  pipelines : List Pipeline
  jobs : List Job
  nextCommit : Nat
  nextJob : Nat
deriving DecidableEq

def PachState.init : PachState := ⟨[], [], [], [], 0, 0⟩

/-- Head commit of a repo's master branch. -/
def headOf (s : PachState) (r : RepoName) : Option CommitID :=
  (s.heads.find? (fun h => h.1 = r)).map (·.2)

/-- Move (or create) a repo's branch head. -/
def setHeadList (hs : List (RepoName × CommitID)) (r : RepoName)
    (c : CommitID) : List (RepoName × CommitID) :=
  if hs.any (fun h => h.1 = r) then
    hs.map fun h => if h.1 = r then (r, c) else h
  else hs ++ [(r, c)]

/-- Look a commit up by ID. -/
def commitOf (s : PachState) (cid : CommitID) : Option Commit :=
  s.commits.find? fun c => c.id = cid

/-- Modelled from the spec: evaluate an input expression against the current
branch heads into the list of triggered provenance rows ("Cross = one leaf
commit per branch, combined; Union = leaves evaluated independently, each
producing its own trigger").  A leaf repo without a head triggers nothing. -/
def evalRows (s : PachState) : Input → List (List CommitID)
  | .atom r _ =>
    match headOf s r with
    | some h => [[h]]
    | none => []
  | .cross a b =>
    (evalRows s a).flatMap fun ra => (evalRows s b).map fun rb => ra ++ rb
  | .union a b => evalRows s a ++ evalRows s b
  | .cron r =>
    match headOf s r with
    | some h => [[h]]
    | none => []
  | .git r =>
    match headOf s r with
    | some h => [[h]]
    | none => []

/-- Modelled from the spec: "Before creating an output commit, check whether
a commit with that exact provenance set already exists for this
pipeline+version; if so, no new commit/job is created."  Jobs are the durable
record of that check: "every triggered (pipeline, provenance-set) yields
exactly one durable job record". -/
def outputExists (s : PachState) (p : Pipeline) (row : List CommitID) : Bool :=
  s.jobs.any fun j =>
    j.pipeline = p.name && j.version = p.version && j.provenance = row

/-- Modelled from the spec: the Propagator creates the (still open) output
commit and its RUNNING job for one triggered provenance row, advancing the
pipeline's output branch head. -/
def addOutputCommit (s : PachState) (p : Pipeline)
    (row : List CommitID) : PachState :=
  let cid := s.nextCommit
  let c : Commit := { id := cid, repo := p.name, parent := headOf s p.name,
                      provenance := row, finished := false, tree := [],
                      isStats := false }
  let j : Job := { id := s.nextJob, pipeline := p.name, version := p.version,
                   provenance := row, outputCommit := cid, state := .RUNNING }
  { s with commits := s.commits ++ [c],
           heads := setHeadList s.heads p.name cid,
           jobs := s.jobs ++ [j],
           nextCommit := cid + 1,
           nextJob := s.nextJob + 1 }

/-- Trigger one pipeline: create an output commit and job for every
currently implied provenance row that does not already have one. -/
def triggerPipeline (s : PachState) (p : Pipeline) : PachState :=
  (evalRows s p.input).foldl
    (fun acc row => if outputExists acc p row then acc else addOutputCommit acc p row)
    s

/-- Modelled from the spec: "OnCommitFinished(commit) triggers, for every
pipeline whose input expression has commit's repo as a leaf, re-evaluation of
the leaf commit sets reachable from branch heads", with the exact-provenance
dedup check before any output commit is created. -/
def propagateFinish (s : PachState) (r : RepoName) : PachState :=
  s.pipelines.foldl
    (fun acc p => if r ∈ p.input.leafRepos then triggerPipeline acc p else acc)
    s

/-- Modelled from the spec: StartCommit + PutFile + FinishCommit on the
master branch of an input repo, then provenance propagation on the finish
event.  `tree` is the commit's resulting full tree. -/
def commitData (s : PachState) (r : RepoName) (tree : FileTree) : PachState :=
  let cid := s.nextCommit
  let c : Commit := { id := cid, repo := r, parent := headOf s r,
                      provenance := [], finished := true, tree := tree,
                      isStats := false }
  propagateFinish
    { s with commits := s.commits ++ [c],
             heads := setHeadList s.heads r cid,
             nextCommit := cid + 1 } r

/-- All commits of a job's provenance row exist and are finished. -/
def jobInputsFinished (s : PachState) (j : Job) : Bool :=
  j.provenance.all fun cid =>
    match commitOf s cid with
    | some c => c.finished
    | none => false

/-- The first job ready to run: RUNNING, inputs finished, output still open. -/
def runnableJob (s : PachState) : Option Job :=
  s.jobs.find? fun j =>
    j.state = .RUNNING && jobInputsFinished s j &&
      (match commitOf s j.outputCommit with
       | some c => !c.finished
       | none => false)

/-- The materialized input view of a provenance row: its trees in order. -/
def rowTrees (s : PachState) (row : List CommitID) : FileTree :=
  row.flatMap fun cid =>
    match commitOf s cid with
    | some c => c.tree
    | none => []

/-- Modelled from the spec: the Scheduler runs the pipeline's Transform over
the job's input, writes the output tree, seals the output commit (sealed
whatever the terminal job state), records SUCCESS or FAILURE on the job,
writes the extra finished stats commit when EnableStats is set, and the
output commit's finish event propagates downstream. -/
def completeJob (s : PachState) (j : Job) : PachState :=
  match s.pipelines.find? (fun p => p.name = j.pipeline && p.version = j.version) with
  | none => s
  | some p =>
    let res := applyTransform p.transform (rowTrees s j.provenance)
    let tree := match res with | .ok t => t | .error _ => []
    let st := match res with | .ok _ => JobState.SUCCESS | .error _ => JobState.FAILURE
    let s1 : PachState :=
      { s with
        commits := s.commits.map fun c =>
          if c.id = j.outputCommit then { c with tree := tree, finished := true }
          else c,
        jobs := s.jobs.map fun j2 =>
          if j2.id = j.id then { j2 with state := st } else j2 }
    let s2 : PachState :=
      if p.enableStats then
        { s1 with
          commits := s1.commits ++
            [{ id := s1.nextCommit, repo := p.name, parent := none,
               provenance := j.provenance, finished := true, tree := [],
               isStats := true }],
          nextCommit := s1.nextCommit + 1 }
      else s1
    propagateFinish s2 p.name

/-- Modelled from the spec: drive the Scheduler to quiescence, repeatedly
completing the first runnable job (fuel-bounded). -/
def runAllJobs : Nat → PachState → PachState
  | 0, s => s
  | fuel + 1, s =>
    match runnableJob s with
    | none => s
    | some j => runAllJobs fuel (completeJob s j)

/-! ### CreatePipeline validation -/

/-- The synchronous ValidationError cases at CreatePipeline. -/
inductive CreatePipelineError where
  | selfReferential
  | duplicateName
  | sharedIncrementalProvenance
deriving DecidableEq

/-- Modelled from the spec: repo-level provenance ancestry for the pipeline
dependency graph — a repo's ancestors are itself and, when a pipeline of
that name exists, the ancestors of that pipeline's input leaves
(fuel-bounded walk of the acyclic dependency graph). -/
def repoAncestors (ps : List Pipeline) : Nat → RepoName → List RepoName
  | 0, r => [r]
  | fuel + 1, r =>
    r :: (match ps.find? (fun p => p.name = r) with
          | some p => p.input.leafRepos.flatMap (repoAncestors ps fuel)
          | none => [])

/-- Two repos share a provenance ancestor (a diamond in the dependency
graph when the repos are distinct leaves of one Cross/Union). -/
def sharesAncestor (ps : List Pipeline) (fuel : Nat) (r1 r2 : RepoName) : Bool :=
  (repoAncestors ps fuel r1).any fun a => a ∈ repoAncestors ps fuel r2

/-- All unordered pairs of distinct positions of a list. -/
def listPairs : List α → List (α × α)
  | [] => []
  | x :: xs => xs.map (fun y => (x, y)) ++ listPairs xs

/-- Modelled from the spec: "Validation at pipeline-creation time rejects:
self-referential input (a pipeline whose input is its own output repo),
duplicate input names within one Cross/Union requiring distinct aliases, and
Incremental=true pipelines whose Cross/Union inputs share a non-linear
(diamond) provenance ancestor — these fail synchronously with no pipeline
created."  Atom inputs are aliased by their repo name. -/
def validatePipeline (s : PachState) (q : Pipeline) : Option CreatePipelineError :=
  let leaves := q.input.leafRepos
  if q.name ∈ leaves then some .selfReferential
  else if ¬ leaves.Nodup then some .duplicateName
  else if q.incremental &&
      (listPairs leaves).any (fun pr =>
        pr.1 ≠ pr.2 &&
          sharesAncestor s.pipelines (s.pipelines.length + 1) pr.1 pr.2) then
    some .sharedIncrementalProvenance
  else none

/-- Modelled from the spec: CreatePipeline validates the request; on success
it registers the pipeline (owning its output repo) and triggers evaluation of
the current branch heads; on a ValidationError it fails synchronously with
the state unchanged — no pipeline, commit, or job is created. -/
def createPipeline (s : PachState) (q : Pipeline) : PachState :=
  match validatePipeline s q with
  | some _ => s
  | none => triggerPipeline { s with pipelines := s.pipelines ++ [q] } q

/-! ### FlushCommit -/

/-- Modelled from the spec: the IDs of commits transitively downstream of
`sources` through provenance edges.  A commit's provenance row only holds
smaller IDs (its inputs were created earlier), so one left fold over the
commit list in creation order closes the relation. -/
def downstreamSet (s : PachState) (sources : List CommitID) : List CommitID :=
  s.commits.foldl
    (fun acc c =>
      if c.provenance.any (fun q => q ∈ sources || q ∈ acc) then acc ++ [c.id]
      else acc)
    []

/-- Modelled from the spec: "FlushCommit(sourceCommits, toRepos?) → stream of
Commit yields, exactly once each, every commit transitively downstream of
sourceCommits (optionally filtered to toRepos) once each such commit reaches
FinishCommit — regardless of the job's SUCCESS/FAILURE/KILLED outcome,
finished only means sealed." -/
def flushCommit (s : PachState) (sources : List CommitID)
    (toRepos : Option (List RepoName)) : List Commit :=
  s.commits.filter fun c =>
    c.finished && c.id ∈ downstreamSet s sources &&
      (match toRepos with
       | none => true
       | some rs => c.repo ∈ rs)

/-! ### DeleteCommit -/

/-- Modelled from the spec: the commits DeleteCommit removes — the target
and, transitively, every commit whose provenance row contains a removed
commit ("cascades to all commits whose provenance includes it"). -/
def doomedCommits (s : PachState) (cid : CommitID) : List CommitID :=
  s.commits.foldl
    (fun acc c =>
      if c.id = cid || c.provenance.any (· ∈ acc) then acc ++ [c.id] else acc)
    []

/-- Walk parent links (fuel-bounded) until a surviving commit, or none. -/
def surviveParent (s : PachState) (doomed : List CommitID) :
    Nat → Option CommitID → Option CommitID
  | _, none => none
  | 0, some h => if h ∈ doomed then none else some h
  | fuel + 1, some h =>
    if h ∈ doomed then
      match commitOf s h with
      | some c => surviveParent s doomed fuel c.parent
      | none => none
    else some h

/-- Modelled from the spec: DeleteCommit "cascades to all commits whose
provenance includes it, relinking parents of surviving descendants"; it
"cancels [a RUNNING job that depends on the commit] (→KILLED) and
re-triggers evaluation using the commit's parent as the new input"; killed
jobs stay recorded ("jobs are never silently dropped"). -/
def deleteCommit (s : PachState) (cid : CommitID) : PachState :=
  match commitOf s cid with
  | none => s
  | some target =>
    let doomed := doomedCommits s cid
    let jobs := s.jobs.map fun j =>
      if j.state = .RUNNING &&
          (j.outputCommit ∈ doomed || j.provenance.any (· ∈ doomed)) then
        { j with state := .KILLED }
      else j
    let commits := (s.commits.filter fun c => c.id ∉ doomed).map fun c =>
      match c.parent with
      | some q =>
        if q ∈ doomed then
          { c with parent := surviveParent s doomed s.commits.length (some q) }
        else c
      | none => c
    let heads := s.heads.foldr
      (fun h acc =>
        if h.2 ∈ doomed then
          match surviveParent s doomed s.commits.length (some h.2) with
          | some h2 => (h.1, h2) :: acc
          | none => acc
        else h :: acc)
      []
    propagateFinish { s with commits := commits, jobs := jobs, heads := heads }
      target.repo

/-! ### Scenarios

Concrete states mirroring the integration tests (TestProvenance,
TestFlushCommitFailures, TestDeleteCommitRunsJob, the EnableStats tests). -/

/-- Count the (non-stats) commits of a repo. -/
def countRepo (s : PachState) (r : RepoName) : Nat :=
  (s.commits.filter fun c => c.repo = r && !c.isStats).length

/-- The tree of a repo's head commit. -/
def headTree (s : PachState) (r : RepoName) : Option FileTree :=
  ((headOf s r).bind (commitOf s)).map (·.tree)

/-- Pipeline B of the non-transitively-reduced DAG: reads repo A. -/
def bPipe : Pipeline :=
  { name := "B", version := 0, input := .atom "A" "/*",
    transform := .copyAll, enableStats := false, incremental := false }

/-- Pipeline C of the non-transitively-reduced DAG: reads repo A and B's
output, so the DAG A→B, A→C, B→C is not a transitive reduction. -/
def cPipe : Pipeline :=
  { name := "C", version := 0,
    input := .cross (.atom "A" "/*") (.atom "B" "/*"),
    transform := .copyAll, enableStats := false, incremental := false }

/-- Both pipelines created over the (still empty) repo A. -/
def setupABC : PachState :=
  createPipeline (createPipeline PachState.init bPipe) cPipe

/-- Finish one new commit in A carrying `x`, and let every triggered job
run to quiescence. -/
def stepA (s : PachState) (x : String) : PachState :=
  runAllJobs 32 (commitData s "A" [("file", x)])

/-- The three-stage chain of TestFlushCommitFailures: stage 1 copies, stage 2
fails when `file1` exists, stage 3 copies stage 2's output. -/
def flushP0 : Pipeline :=
  { name := "P0", version := 0, input := .atom "data" "/*",
    transform := .copyAll, enableStats := false, incremental := false }

def flushP1 : Pipeline :=
  { name := "P1", version := 0, input := .atom "P0" "/*",
    transform := .failIfFile "file1", enableStats := false, incremental := false }

def flushP2 : Pipeline :=
  { name := "P2", version := 0, input := .atom "P1" "/*",
    transform := .copyAll, enableStats := false, incremental := false }

/-- Two commits to `data`; the second makes the middle pipeline fail, as in
TestFlushCommitFailures. -/
def flushScenario : PachState :=
  let s := createPipeline (createPipeline (createPipeline PachState.init flushP0) flushP1) flushP2
  let s := runAllJobs 32 (commitData s "data" [("file0", "foo\n")])
  runAllJobs 32 (commitData s "data" [("file0", "foo\n"), ("file1", "foo\n")])

/-- A pipeline with EnableStats set, reading repo D. -/
def statsPipe : Pipeline :=
  { name := "S", version := 0, input := .atom "D" "/*",
    transform := .copyAll, enableStats := true, incremental := false }

/-- One input commit to D (IDs: input commit 0, output commit 1, stats
commit 2), all jobs run. -/
def statsScenario (x : String) : PachState :=
  runAllJobs 16 (commitData (createPipeline PachState.init statsPipe) "D" [("file", x)])

/-- The pipeline of TestDeleteCommitRunsJob: copies `/data` from repo R. -/
def delPipe : Pipeline :=
  { name := "P", version := 0, input := .atom "R" "/",
    transform := .copyFile "/data", enableStats := false, incremental := false }

/-- Commit 0 in repo R. -/
def sR1 : PachState :=
  commitData PachState.init "R" [("/time", "1"), ("/data", "commit 1 data")]

/-- Commit 1 in repo R (head). -/
def sR2 : PachState :=
  commitData sR1 "R" [("/time", "600"), ("/data", "commit 2 data")]

/-- Pipeline created over head commit 1: output commit 2 is open and job 0 is
RUNNING on provenance row [1] — the state in which the test deletes the
head input commit. -/
def sP : PachState := createPipeline sR2 delPipe

/-- Delete input commit 1 while its job is RUNNING, then run to quiescence. -/
def sDel : PachState := runAllJobs 16 (deleteCommit sP 1)

/-- The comparison run: the pipeline processing commit 0 directly. -/
def sDirect : PachState := runAllJobs 16 (createPipeline sR1 delPipe)

/-! ### Supporting lemmas -/

/-- When every attempt of the user command fails, the retry loop emits one
failure log line per configured try and reports no success. -/
theorem runDatumAttempts_allFail (cmdOk : Nat → Bool) (h : ∀ i, cmdOk i = false) :
    ∀ (fuel attempt : Nat), runDatumAttempts cmdOk attempt fuel = (fuel, false) := by
  intro fuel
  induction fuel with
  | zero => intro a; rfl
  | succ n ih => intro a; simp [runDatumAttempts, h a, ih (a + 1)]

/-- When every datum's ID already has a recorded successful run, the
Dedup/Skip engine marks everything SKIPPED, leaves the record unchanged and
invokes user code zero times. -/
theorem processDatums_skipped (userOk : Datum → Bool) :
    ∀ (ds : List Datum) (record : List FileTree),
      (∀ d ∈ ds, datumID d ∈ record) →
      processDatums userOk ds record =
        (ds.map (fun d => (d, DatumState.SKIPPED)), record, 0) := by
  intro ds
  induction ds with
  | nil => intro record _; rfl
  | cons d ds ih =>
    intro record h
    have hd : datumID d ∈ record := h d (by simp)
    have ht : ∀ d' ∈ ds, datumID d' ∈ record := fun d' hm => h d' (by simp [hm])
    simp [processDatums, hd, ih record ht]

/-! ### Claim theorems -/

/-- C8: the worker-pool size computed from a ParallelismSpec is: Constant=N
yields N workers; Coefficient=c yields max(1, round(c * clusterNodeCount)) —
in particular Coefficient=1 yields exactly the cluster node count and
Coefficient=0.01 yields at least 1 — and a zero-valued or nil spec yields
exactly 1 worker. -/
theorem parallelism_worker_count (nodes n : Nat) (c : ℚ)
    (hn : 0 < n) (hnodes : 0 < nodes) (hc : 0 < c) :
    GetExpectedNumWorkers nodes (some { constant := n, coefficient := 0 }) = n
  ∧ GetExpectedNumWorkers nodes (some { constant := 0, coefficient := c }) =
      max 1 (round (c * nodes)).toNat
  ∧ GetExpectedNumWorkers nodes (some { constant := 0, coefficient := 1 }) = nodes
  ∧ 1 ≤ GetExpectedNumWorkers nodes (some { constant := 0, coefficient := 1 / 100 })
  ∧ GetExpectedNumWorkers nodes (some { constant := 0, coefficient := 0 }) = 1
  ∧ GetExpectedNumWorkers nodes none = 1 := by
  refine ⟨by simp [GetExpectedNumWorkers, hn], by simp [GetExpectedNumWorkers, hc], ?_, ?_, ?_, rfl⟩
  · simp only [GetExpectedNumWorkers]
    norm_num
    omega
  · simp only [GetExpectedNumWorkers]
    norm_num
  · simp [GetExpectedNumWorkers]

/-- C8 witness. -/
theorem parallelism_worker_count_witness :
    GetExpectedNumWorkers 3 (some { constant := 7, coefficient := 0 }) = 7
  ∧ GetExpectedNumWorkers 3 (some { constant := 0, coefficient := 2 }) =
      max 1 (round ((2 : ℚ) * 3)).toNat
  ∧ GetExpectedNumWorkers 3 (some { constant := 0, coefficient := 1 }) = 3
  ∧ 1 ≤ GetExpectedNumWorkers 3 (some { constant := 0, coefficient := 1 / 100 })
  ∧ GetExpectedNumWorkers 3 (some { constant := 0, coefficient := 0 }) = 1
  ∧ GetExpectedNumWorkers 3 none = 1 :=
  parallelism_worker_count 3 7 2 (by norm_num) (by norm_num) (by norm_num)

/-- C5: with DatumTries=5 and a command that fails on every attempt, exactly
5 failure-retry log lines are emitted before the job reaches FAILURE, and the
failed job's Reason contains the string "datum". -/
theorem datumTries_five_failures (cmdOk : Nat → Bool) (h : ∀ i, cmdOk i = false) :
    (runJobOneDatum cmdOk 5).2 = 5
  ∧ (runJobOneDatum cmdOk 5).1.state = JobState.FAILURE
  ∧ strHas (runJobOneDatum cmdOk 5).1.reason "datum" = true := by
  have e : runDatumAttempts cmdOk 0 5 = (5, false) :=
    runDatumAttempts_allFail cmdOk h 5 0
  refine ⟨by simp [runJobOneDatum, e], by simp [runJobOneDatum, e], ?_⟩
  simp only [runJobOneDatum, e]
  decide

/-- C5 witness. -/
theorem datumTries_five_failures_witness :
    (runJobOneDatum (fun _ => false) 5).2 = 5
  ∧ (runJobOneDatum (fun _ => false) 5).1.state = JobState.FAILURE
  ∧ strHas (runJobOneDatum (fun _ => false) 5).1.reason "datum" = true :=
  datumTries_five_failures (fun _ => false) (fun _ => rfl)

/-- C6: a datum whose execution time exceeds DatumTimeout has its process
killed, is marked FAILED with recorded ProcessTime equal to the timeout, and
the job fails; a job whose execution exceeds JobTimeout is forcibly KILLED
with Finished − Started equal to the timeout. -/
theorem timeout_kills (need total t u started : Nat)
    (hd : t < need) (hj : u < total) :
    runDatumWithTimeout need (some t) =
      { state := .FAILED, stats := { processTime := t }, processKilled := true }
  ∧ jobStateOfDatums [runDatumWithTimeout need (some t)] = .FAILURE
  ∧ runJobWithTimeout total started (some u) =
      { state := .KILLED, started := started, finished := started + u }
  ∧ (runJobWithTimeout total started (some u)).finished -
      (runJobWithTimeout total started (some u)).started = u := by
  have e1 : runDatumWithTimeout need (some t) =
      { state := .FAILED, stats := { processTime := t }, processKilled := true } := by
    simp [runDatumWithTimeout, hd]
  have e2 : runJobWithTimeout total started (some u) =
      { state := .KILLED, started := started, finished := started + u } := by
    simp [runJobWithTimeout, hj]
  refine ⟨e1, by simp [jobStateOfDatums, e1], e2, by simp [e2]⟩

/-- C6 witness. -/
theorem timeout_kills_witness :
    runDatumWithTimeout 21 (some 20) =
      { state := .FAILED, stats := { processTime := 20 }, processKilled := true }
  ∧ jobStateOfDatums [runDatumWithTimeout 21 (some 20)] = .FAILURE
  ∧ runJobWithTimeout 45 0 (some 20) =
      { state := .KILLED, started := 0, finished := 0 + 20 }
  ∧ (runJobWithTimeout 45 0 (some 20)).finished -
      (runJobWithTimeout 45 0 (some 20)).started = 20 :=
  timeout_kills 21 45 20 20 0 (by norm_num) (by norm_num)

/-- C2: a job over an input commit whose datums are all byte-identical to
datums of an earlier SUCCESSful job (every planned datum's ID is in the
pipeline's record of successful runs) marks every datum SKIPPED and completes
(as SUCCESS) with zero invocations of the user transform code. -/
theorem replay_identical_datums_skipped (userOk : Datum → Bool)
    (tree : FileTree) (record : List FileTree)
    (h : ∀ d ∈ planAtomDatums tree, datumID d ∈ record) :
    (runJobDatums userOk tree record).1 =
      (planAtomDatums tree).map (fun d => (d, DatumState.SKIPPED))
  ∧ (runJobDatums userOk tree record).2.2 = 0
  ∧ jobStateOfStates (runJobDatums userOk tree record).1 = JobState.SUCCESS := by
  have e := processDatums_skipped userOk (planAtomDatums tree) record h
  refine ⟨by simp [runJobDatums, e], by simp [runJobDatums, e], ?_⟩
  simp [runJobDatums, e, jobStateOfStates, List.any_map, Function.comp]

/-- C2 witness. -/
theorem replay_identical_datums_skipped_witness :
    (runJobDatums (fun _ => true) [("file", "foo")] [[("file", "foo")]]).1 =
      (planAtomDatums [("file", "foo")]).map (fun d => (d, DatumState.SKIPPED))
  ∧ (runJobDatums (fun _ => true) [("file", "foo")] [[("file", "foo")]]).2.2 = 0
  ∧ jobStateOfStates
      (runJobDatums (fun _ => true) [("file", "foo")] [[("file", "foo")]]).1 =
      JobState.SUCCESS :=
  replay_identical_datums_skipped (fun _ => true) [("file", "foo")]
    [[("file", "foo")]] (by decide)

/-- C9: a datum whose content is removed in one commit and re-added
byte-identically in a later commit is marked SKIPPED by the later job
(reusing the hash recorded by the first job), not SUCCESS, even though the
intervening commit's state differs. -/
theorem skip_on_revert (f x : String) (userOk : Datum → Bool)
    (h : userOk { files := [(f, x)] } = true) :
    (runJobDatums userOk [(f, x)] []).1 =
      [({ files := [(f, x)] }, DatumState.SUCCESS)]
  ∧ (runJobDatums userOk []
      (runJobDatums userOk [(f, x)] []).2.1).2.1 =
      (runJobDatums userOk [(f, x)] []).2.1
  ∧ (runJobDatums userOk [(f, x)]
      (runJobDatums userOk []
        (runJobDatums userOk [(f, x)] []).2.1).2.1).1 =
      [({ files := [(f, x)] }, DatumState.SKIPPED)] := by
  refine ⟨?_, ?_, ?_⟩ <;>
    simp [runJobDatums, planAtomDatums, processDatums, datumID, h]

/-- C9 witness. -/
theorem skip_on_revert_witness :
    (runJobDatums (fun _ => true) [("file-0", "foo")] []).1 =
      [({ files := [("file-0", "foo")] }, DatumState.SUCCESS)]
  ∧ (runJobDatums (fun _ => true) []
      (runJobDatums (fun _ => true) [("file-0", "foo")] []).2.1).2.1 =
      (runJobDatums (fun _ => true) [("file-0", "foo")] []).2.1
  ∧ (runJobDatums (fun _ => true) [("file-0", "foo")]
      (runJobDatums (fun _ => true) []
        (runJobDatums (fun _ => true) [("file-0", "foo")] []).2.1).2.1).1 =
      [({ files := [("file-0", "foo")] }, DatumState.SKIPPED)] :=
  skip_on_revert "file-0" "foo" (fun _ => true) rfl

/-- C4: CreatePipeline fails synchronously, with the state unchanged (no
pipeline, commit, or job created), when the pipeline's input is
self-referential (its input is its own output repo), and likewise when
Incremental=true and two distinct leaves of the Cross/Union input share a
(diamond) provenance ancestor. -/
theorem createPipeline_rejects_invalid (s : PachState) (q : Pipeline) :
    (q.name ∈ q.input.leafRepos →
      validatePipeline s q = some .selfReferential ∧ createPipeline s q = s)
  ∧ (q.incremental = true →
      (∃ pr ∈ listPairs q.input.leafRepos,
        pr.1 ≠ pr.2 ∧
          sharesAncestor s.pipelines (s.pipelines.length + 1) pr.1 pr.2 = true) →
      (∃ e, validatePipeline s q = some e) ∧ createPipeline s q = s) := by
  constructor
  · intro h
    have hv : validatePipeline s q = some .selfReferential := by
      simp [validatePipeline, h]
    exact ⟨hv, by simp [createPipeline, hv]⟩
  · intro hinc hex
    have hv : ∃ e, validatePipeline s q = some e := by
      by_cases h1 : q.name ∈ q.input.leafRepos
      · exact ⟨.selfReferential, by simp [validatePipeline, h1]⟩
      · by_cases h2 : q.input.leafRepos.Nodup
        · refine ⟨.sharedIncrementalProvenance, ?_⟩
          rcases hex with ⟨⟨a, b⟩, hmem, hne, hsh⟩
          simp [validatePipeline, h1, h2, hinc]
          exact ⟨a, b, hmem, hne, hsh⟩
        · exact ⟨.duplicateName, by simp [validatePipeline, h1, h2]⟩
    rcases hv with ⟨e, he⟩
    exact ⟨⟨e, he⟩, by simp [createPipeline, he]⟩

/-- The existing pipelines for the C4 witness: A and B both read repo
`data`, so they share a provenance ancestor. -/
def valWitState : PachState :=
  { commits := [], heads := [],
    pipelines :=
      [{ name := "A", version := 0, input := .atom "data" "/",
         transform := .copyAll, enableStats := false, incremental := false },
       { name := "B", version := 0, input := .atom "data" "/",
         transform := .copyAll, enableStats := false, incremental := false }],
    jobs := [], nextCommit := 0, nextJob := 0 }

/-- The C4 witness request: self-referential (reads its own output repo P)
and Incremental over the diamond-sharing inputs A and B. -/
def valWitReq : Pipeline :=
  { name := "P", version := 0,
    input := .cross (.atom "P" "/") (.cross (.atom "A" "/") (.atom "B" "/")),
    transform := .copyAll, enableStats := false, incremental := true }

/-- C4 witness. -/
theorem createPipeline_rejects_invalid_witness :
    (validatePipeline valWitState valWitReq = some .selfReferential ∧
      createPipeline valWitState valWitReq = valWitState)
  ∧ ((∃ e, validatePipeline valWitState valWitReq = some e) ∧
      createPipeline valWitState valWitReq = valWitState) :=
  ⟨(createPipeline_rejects_invalid valWitState valWitReq).1 (by decide),
   (createPipeline_rejects_invalid valWitState valWitReq).2 rfl
     ⟨("A", "B"), by decide, by decide, by decide⟩⟩

/-- C1: on the non-transitively-reduced DAG A→B, A→C, B→C (pipelines B and C
both read repo A, and C also reads B's output), finishing one new commit in A
creates exactly one new output commit in C — one after the first commit, two
after the second — because for each change to A exactly one job per pipeline
C exists and no two of C's jobs share a provenance set (an output commit
whose exact provenance set already exists is never created a second time),
with the test's file contents. -/
theorem provenance_non_reduced_dag_single_output :
    countRepo (stepA setupABC "foo\n") "C" = 1
  ∧ countRepo (stepA (stepA setupABC "foo\n") "bar\n") "C" = 2
  ∧ ((stepA (stepA setupABC "foo\n") "bar\n").jobs.filter
      fun j => j.pipeline = "C").length = 2
  ∧ (((stepA (stepA setupABC "foo\n") "bar\n").jobs.filter
      fun j => j.pipeline = "C").map (fun j => j.provenance)).Nodup := by
  decide

/-- C3: FlushCommit(sourceCommits, toRepos) yields, exactly once each (no
duplicates), precisely the finished commits transitively downstream of the
source commits (filtered to toRepos when given), and its result is
independent of the job records — hence of whether the producing jobs ended in
SUCCESS, FAILURE, or KILLED. -/
theorem flushCommit_exactly_once (s : PachState) (sources : List CommitID)
    (toRepos : Option (List RepoName))
    (hn : (s.commits.map (fun c => c.id)).Nodup) :
    ((flushCommit s sources toRepos).map (fun c => c.id)).Nodup
  ∧ (∀ c, c ∈ flushCommit s sources toRepos ↔
      c ∈ s.commits ∧ c.finished = true ∧ c.id ∈ downstreamSet s sources ∧
        (∀ rs, toRepos = some rs → c.repo ∈ rs))
  ∧ (∀ js, flushCommit { s with jobs := js } sources toRepos =
      flushCommit s sources toRepos) := by
  refine ⟨?_, ?_, fun js => rfl⟩
  · exact List.Nodup.sublist
      (List.Sublist.map _ (List.filter_sublist s.commits)) hn
  · intro c
    cases toRepos with
    | none => simp [flushCommit, List.mem_filter, and_assoc]
    | some rs => simp [flushCommit, List.mem_filter, and_assoc]

/-- C3 witness: the three-stage chain in which the middle pipeline's second
job FAILED; flushing the second source commit still yields each of the three
downstream sealed commits exactly once. -/
theorem flushCommit_exactly_once_witness :
    ((flushCommit flushScenario [4] none).map (fun c => c.id)).Nodup
  ∧ (∀ c, c ∈ flushCommit flushScenario [4] none ↔
      c ∈ flushScenario.commits ∧ c.finished = true ∧
        c.id ∈ downstreamSet flushScenario [4] ∧
        (∀ rs, (none : Option (List RepoName)) = some rs → c.repo ∈ rs))
  ∧ (∀ js, flushCommit { flushScenario with jobs := js } [4] none =
      flushCommit flushScenario [4] none) :=
  flushCommit_exactly_once flushScenario [4] none (by decide)

/-- C7: deleting input commit 1 while job 0 (which depends on it) is RUNNING
cancels that job (it reaches KILLED), re-triggers evaluation with the deleted
commit's parent (commit 0) as the new input — a job with provenance [0]
succeeds — and the resulting output of pipeline P equals what processing the
parent commit directly produces. -/
theorem deleteCommit_cancels_and_reruns :
    (commitOf sP 1).bind (fun c => c.parent) = some 0
  ∧ ((sP.jobs.find? (fun j => j.id = 0)).map (fun j => j.state)) = some .RUNNING
  ∧ ((sDel.jobs.find? (fun j => j.id = 0)).map (fun j => j.state)) = some .KILLED
  ∧ sDel.jobs.any (fun j => j.provenance = [0] && j.state = .SUCCESS) = true
  ∧ headTree sDel "P" = some [("/data", "commit 1 data")]
  ∧ headTree sDel "P" = headTree sDirect "P" := by
  decide

/-- C10: for a pipeline created with EnableStats=true, flushing its finished
input commit yields two finished commits belonging to that single pipeline's
repo — its output commit plus a stats commit — so FlushCommit's stream
contains more than one commit for that downstream pipeline repo. -/
theorem enableStats_flush_two_commits :
    (flushCommit (statsScenario "foo") [0] none).length = 2
  ∧ (flushCommit (statsScenario "foo") [0] none).all
      (fun c => c.repo = "S" && c.finished) = true
  ∧ ((flushCommit (statsScenario "foo") [0] none).filter
      (fun c => !c.isStats)).length = 1
  ∧ ((flushCommit (statsScenario "foo") [0] none).filter
      (fun c => c.isStats)).length = 1 := by
  decide

end Pach
